import Mathlib

/-!
Shallow embedding of the coverage-feedback core of fuzztest
(`fuzztest/internal/coverage.h`): the per-execution coverage recorder
(`ExecutionCoverage`) and the corpus coverage aggregator (`CorpusCoverage`).

Machine integers are modelled as `Nat`; the only place where the 8-bit width
matters to the behaviour under study is the saturating increment of the
per-location comparison hit counter, modelled explicitly with a clamp at 255.
Pointers (stack frame addresses) are modelled as `Nat`; thread identities as
`Nat`; the thread-local variable `test_thread_stack_top` is modelled as a map
from thread id to the optional recorded stack-top of that thread.
-/

namespace FuzztestCoverage

/-- `kCmpCovMapSize` from coverage.h: size of the cmp coverage maps (256 KB). -/
def kCmpCovMapSize : Nat := 1024 * 256

/-- `kMaxStackMapSize` from coverage.h: size of the per-PC stack watermark map. -/
def kMaxStackMapSize : Nat := 1024 * 256

/-- `ExecutionCoverage::CmpScore` from coverage.h: per-location comparison score
triple `(counter, hamming, absolute)`. -/
structure CmpScore where
  counter : Nat
  hamming : Nat
  absolute : Nat
deriving DecidableEq, Repr

/-- State of the `ExecutionCoverage` recorder, one field per data member of the
C++ class.  `counter_map` is the borrowed edge-counter span (a list, so that it
carries its size); the fixed-size arrays are modelled as total functions from
index to value.  `test_thread_stack_top` is thread-local in the C++ code, so it
is modelled as a map from thread id to that thread's slot (initially `none`,
i.e. `nullptr`). -/
structure ExecutionCoverage where
  counter_map : List Nat
  new_cmp_counter_map : Nat → Nat
  max_cmp_map : Nat → CmpScore
  test_thread_stack_top : Nat → Option Nat
  max_stack_recorded : Nat
  max_stack_map : Nat → Nat
  new_coverage : Bool
  tables_of_recent_compares : List (Nat × Nat)
  is_tracing : Bool

/-- A freshly constructed recorder over an edge-counter span of size 4: all
maps zero (the C++ data members are zero-initialized), no thread has set its
`test_thread_stack_top` slot, latch false, tracing off. -/
def freshCoverage : ExecutionCoverage :=
  { counter_map := [0, 0, 0, 0]
    new_cmp_counter_map := fun _ => 0
    max_cmp_map := fun _ => ⟨0, 0, 0⟩
    test_thread_stack_top := fun _ => none
    max_stack_recorded := 0
    max_stack_map := fun _ => 0
    new_coverage := false
    tables_of_recent_compares := []
    is_tracing := false }

/-- `ExecutionCoverage::ResetState` from coverage.h (inline in the header):
zeroes `new_cmp_counter_map_` and the borrowed `counter_map_`, clears the
latch, zeroes `max_stack_recorded_` and stores the calling thread's current
stack frame in its thread-local `test_thread_stack_top` slot.  It does NOT
touch `max_cmp_map_`, `max_stack_map_` or `tables_of_recent_compares_`.
`tid` is the calling thread, `frame` the result of `GetCurrentStackFrame`. -/
def ResetState (tid frame : Nat) (s : ExecutionCoverage) : ExecutionCoverage :=
  { s with
    new_cmp_counter_map := fun _ => 0
    counter_map := s.counter_map.map (fun _ => 0)
    new_coverage := false
    max_stack_recorded := 0
    test_thread_stack_top := fun t =>
      if t = tid then some frame else s.test_thread_stack_top t }

/-- `ExecutionCoverage::SetIsTracing` from coverage.h. -/
def SetIsTracing (b : Bool) (s : ExecutionCoverage) : ExecutionCoverage :=
  { s with is_tracing := b }

/-- `ExecutionCoverage::NewCoverageFound` from coverage.h (the relaxed atomic
load is just a read here). -/
def NewCoverageFound (s : ExecutionCoverage) : Bool :=
  s.new_coverage

/-- Saturating increment of an 8-bit counter: clamped at 255, the maximum
representable value of `uint8_t`. -/
def satIncr (c : Nat) : Nat :=
  if c < 255 then c + 1 else c

/-- Modelled from the spec: the body of `ExecutionCoverage::UpdateCmpMap` is
not in the header (only its declaration and the `CmpScore` field comments are).
Score update for one location, following the spec's tie-break policy and the
header comment on `CmpScore`: given the incremented per-run counter `c1` and
the stored score `sc`, if `c1` exceeds `sc.counter` the whole triple is
overwritten with the new sample and it is new coverage; if `c1` equals
`sc.counter`, `hamming` and `absolute` are compared independently and only the
strictly improved field(s) are overwritten, flagging new coverage; otherwise
nothing changes.  Returns the new score and the new-coverage flag. -/
def cmpScoreStep (c1 : Nat) (sc : CmpScore) (h1 a1 : Nat) : CmpScore × Bool :=
  if sc.counter < c1 then
    (⟨c1, h1, a1⟩, true)
  else if c1 = sc.counter then
    (⟨sc.counter,
      if sc.hamming < h1 then h1 else sc.hamming,
      if sc.absolute < a1 then a1 else sc.absolute⟩,
      decide (sc.hamming < h1) || decide (sc.absolute < a1))
  else
    (sc, false)

/-- Modelled from the spec: the body of `ExecutionCoverage::UpdateCmpMap` is
not in the header.  Reduces `index` modulo the map size, applies the saturating
increment to the per-run hit counter at that location, runs the tie-break
policy (`cmpScoreStep`) against the stored score, and ORs the resulting
new-coverage flag into the latch. -/
def UpdateCmpMap (s : ExecutionCoverage) (index hamming_dist absolute_dist : Nat) :
    ExecutionCoverage :=
  let i := index % kCmpCovMapSize
  let c1 := satIncr (s.new_cmp_counter_map i)
  let r := cmpScoreStep c1 (s.max_cmp_map i) hamming_dist absolute_dist
  { s with
    new_cmp_counter_map := fun j => if j = i then c1 else s.new_cmp_counter_map j
    max_cmp_map := fun j => if j = i then r.1 else s.max_cmp_map j
    new_coverage := s.new_coverage || r.2 }

/-- Modelled from the spec: `record_comparison` is a no-op while tracing is
disabled (the external hook consults `IsTracing`, whose definition is in the
header, before recording); while tracing is enabled it performs
`UpdateCmpMap`. -/
def RecordComparison (s : ExecutionCoverage) (index hamming_dist absolute_dist : Nat) :
    ExecutionCoverage :=
  if s.is_tracing then UpdateCmpMap s index hamming_dist absolute_dist else s

/-- Run a list of `(index, hamming, absolute)` comparison records in order. -/
def runComparisons (s : ExecutionCoverage) (calls : List (Nat × Nat × Nat)) :
    ExecutionCoverage :=
  calls.foldl (fun t c => RecordComparison t c.1 c.2.1 c.2.2) s

/-- Modelled from the spec: the body of `ExecutionCoverage::UpdateMaxStack` is
not in the header (only its declaration and comment are).  On a thread whose
thread-local `test_thread_stack_top` slot is unset it is a no-op.  Otherwise
the stack depth is the non-negative distance from the recorded stack top down
to the current frame; if it exceeds the stored watermark for the call site the
watermark is overwritten and the latch set; if it exceeds
`max_stack_recorded` that is overwritten and, when the new maximum exceeds the
configured budget (`MaxAllowedStackUsage`, passed here as `budget`), the
process is terminated — modelled by the returned `Bool` being `true`. -/
def UpdateMaxStack (tid frame pc budget : Nat) (s : ExecutionCoverage) :
    ExecutionCoverage × Bool :=
  match s.test_thread_stack_top tid with
  | none => (s, false)
  | some top =>
    let depth := top - frame
    let i := pc % kMaxStackMapSize
    let newMap :=
      if s.max_stack_map i < depth then
        fun j => if j = i then depth else s.max_stack_map j
      else s.max_stack_map
    let newLatch := s.new_coverage || decide (s.max_stack_map i < depth)
    if s.max_stack_recorded < depth then
      ({ s with max_stack_map := newMap, new_coverage := newLatch,
                max_stack_recorded := depth },
        decide (budget < depth))
    else
      ({ s with max_stack_map := newMap, new_coverage := newLatch }, false)

/-- Modelled from the spec: the body of `CorpusCoverage::Update` is not in the
header (only its declaration is).  For every index, if the recorder's edge
counter exceeds the aggregator's stored value, the stored value is overwritten
and the change is remembered; returns the updated corpus map together with
whether any index changed. -/
def corpusUpdate : List Nat → List Nat → List Nat × Bool
  | [], _ => ([], false)
  | c :: cs, [] => (c :: cs, false)
  | c :: cs, r :: rs =>
    let rest := corpusUpdate cs rs
    if c < r then (r :: rest.1, true) else (c :: rest.1, rest.2)

/-- `CorpusCoverage::GetNumberOfCoveredEdges` from coverage.h (inline in the
header): the map size minus the number of zero entries. -/
def GetNumberOfCoveredEdges (m : List Nat) : Nat :=
  m.length - m.count 0

/-! ## Helper lemmas -/

theorem cmpScoreStep_flag (c1 : Nat) (sc : CmpScore) (h1 a1 : Nat) :
    ((cmpScoreStep c1 sc h1 a1).2 = true ↔
      (sc.counter < c1 ∨ (c1 = sc.counter ∧ (sc.hamming < h1 ∨ sc.absolute < a1)))) := by
  by_cases hlt : sc.counter < c1
  · simp [cmpScoreStep, hlt]
  · by_cases heq : c1 = sc.counter
    · simp only [cmpScoreStep, if_neg hlt, if_pos heq, Bool.or_eq_true, decide_eq_true_eq]
      constructor
      · intro h
        exact Or.inr ⟨heq, h⟩
      · rintro (h | ⟨-, h⟩)
        · exact absurd h hlt
        · exact h
    · simp [cmpScoreStep, if_neg hlt, if_neg heq, hlt, heq]

theorem cmpScoreStep_hamming_frame (c1 : Nat) (sc : CmpScore) (h1 a1 : Nat)
    (hc : c1 = sc.counter) (hh : ¬ sc.hamming < h1) :
    (cmpScoreStep c1 sc h1 a1).1.hamming = sc.hamming := by
  subst hc
  simp [cmpScoreStep, hh]

theorem cmpScoreStep_absolute_frame (c1 : Nat) (sc : CmpScore) (h1 a1 : Nat)
    (hc : c1 = sc.counter) (ha : ¬ sc.absolute < a1) :
    (cmpScoreStep c1 sc h1 a1).1.absolute = sc.absolute := by
  subst hc
  simp [cmpScoreStep, ha]

/-! ## Claim theorems -/

/-- C1: for a comparison recorded while tracing is enabled, with stored score
`(c0,h0,a0)` at the (reduced) location and incremented per-run counter `c1`,
the new-coverage latch ends up set iff `c1 > c0`, or `c1 = c0` and
(`h1 > h0` or `a1 > a0`); and when the counter did not improve (`c1 = c0`), a
field among hamming/absolute whose new value does not exceed its stored value
is left unchanged. -/
theorem cmp_tie_break_correct (s : ExecutionCoverage) (index h1 a1 : Nat)
    (htr : s.is_tracing = true) (hlat : s.new_coverage = false) :
    (((RecordComparison s index h1 a1).new_coverage = true ↔
      ((s.max_cmp_map (index % kCmpCovMapSize)).counter <
          satIncr (s.new_cmp_counter_map (index % kCmpCovMapSize)) ∨
        (satIncr (s.new_cmp_counter_map (index % kCmpCovMapSize)) =
            (s.max_cmp_map (index % kCmpCovMapSize)).counter ∧
          ((s.max_cmp_map (index % kCmpCovMapSize)).hamming < h1 ∨
            (s.max_cmp_map (index % kCmpCovMapSize)).absolute < a1)))) ∧
    (satIncr (s.new_cmp_counter_map (index % kCmpCovMapSize)) =
        (s.max_cmp_map (index % kCmpCovMapSize)).counter →
      ¬ (s.max_cmp_map (index % kCmpCovMapSize)).hamming < h1 →
      ((RecordComparison s index h1 a1).max_cmp_map (index % kCmpCovMapSize)).hamming =
        (s.max_cmp_map (index % kCmpCovMapSize)).hamming) ∧
    (satIncr (s.new_cmp_counter_map (index % kCmpCovMapSize)) =
        (s.max_cmp_map (index % kCmpCovMapSize)).counter →
      ¬ (s.max_cmp_map (index % kCmpCovMapSize)).absolute < a1 →
      ((RecordComparison s index h1 a1).max_cmp_map (index % kCmpCovMapSize)).absolute =
        (s.max_cmp_map (index % kCmpCovMapSize)).absolute)) := by
  have hrc : RecordComparison s index h1 a1 = UpdateCmpMap s index h1 a1 := by
    simp [RecordComparison, htr]
  rw [hrc]
  simp only [UpdateCmpMap, hlat, Bool.false_or, if_pos rfl]
  refine ⟨cmpScoreStep_flag _ _ _ _, ?_, ?_⟩
  · intro hc hh
    exact cmpScoreStep_hamming_frame _ _ _ _ hc hh
  · intro hc ha
    exact cmpScoreStep_absolute_frame _ _ _ _ hc ha

/-- Witness for `cmp_tie_break_correct` at a concrete traced state. -/
theorem cmp_tie_break_correct_witness :
    (SetIsTracing true freshCoverage).is_tracing = true ∧
    (SetIsTracing true freshCoverage).new_coverage = false ∧
    ((((RecordComparison (SetIsTracing true freshCoverage) 7 5 200).new_coverage = true ↔
      (((SetIsTracing true freshCoverage).max_cmp_map (7 % kCmpCovMapSize)).counter <
          satIncr ((SetIsTracing true freshCoverage).new_cmp_counter_map (7 % kCmpCovMapSize)) ∨
        (satIncr ((SetIsTracing true freshCoverage).new_cmp_counter_map (7 % kCmpCovMapSize)) =
            ((SetIsTracing true freshCoverage).max_cmp_map (7 % kCmpCovMapSize)).counter ∧
          (((SetIsTracing true freshCoverage).max_cmp_map (7 % kCmpCovMapSize)).hamming < 5 ∨
            ((SetIsTracing true freshCoverage).max_cmp_map (7 % kCmpCovMapSize)).absolute < 200)))) ∧
    (satIncr ((SetIsTracing true freshCoverage).new_cmp_counter_map (7 % kCmpCovMapSize)) =
        ((SetIsTracing true freshCoverage).max_cmp_map (7 % kCmpCovMapSize)).counter →
      ¬ ((SetIsTracing true freshCoverage).max_cmp_map (7 % kCmpCovMapSize)).hamming < 5 →
      ((RecordComparison (SetIsTracing true freshCoverage) 7 5 200).max_cmp_map
          (7 % kCmpCovMapSize)).hamming =
        ((SetIsTracing true freshCoverage).max_cmp_map (7 % kCmpCovMapSize)).hamming) ∧
    (satIncr ((SetIsTracing true freshCoverage).new_cmp_counter_map (7 % kCmpCovMapSize)) =
        ((SetIsTracing true freshCoverage).max_cmp_map (7 % kCmpCovMapSize)).counter →
      ¬ ((SetIsTracing true freshCoverage).max_cmp_map (7 % kCmpCovMapSize)).absolute < 200 →
      ((RecordComparison (SetIsTracing true freshCoverage) 7 5 200).max_cmp_map
          (7 % kCmpCovMapSize)).absolute =
        ((SetIsTracing true freshCoverage).max_cmp_map (7 % kCmpCovMapSize)).absolute))) :=
  ⟨rfl, rfl, cmp_tie_break_correct (SetIsTracing true freshCoverage) 7 5 200 rfl rfl⟩

/-- C2: after a corpus merge, the aggregator's value at each index is the max
of its old value and the recorder's edge counter there, and the merge returns
true iff at least one index strictly increased. -/
theorem corpus_merge_max (corpus rec : List Nat) (h : corpus.length = rec.length) :
    ((∀ i, i < corpus.length →
      (corpusUpdate corpus rec).1.getD i 0 = max (corpus.getD i 0) (rec.getD i 0)) ∧
    ((corpusUpdate corpus rec).2 = true ↔
      ∃ i, i < corpus.length ∧ corpus.getD i 0 < rec.getD i 0)) := by
  induction corpus generalizing rec with
  | nil =>
    cases rec with
    | nil =>
      refine ⟨fun i hi => absurd hi (by simp), ?_⟩
      simp [corpusUpdate]
    | cons r rs => simp at h
  | cons c cs ih =>
    cases rec with
    | nil => simp at h
    | cons r rs =>
      have h2 : cs.length = rs.length := by simpa using h
      obtain ⟨ih1, ih2⟩ := ih rs h2
      constructor
      · intro i hi
        cases i with
        | zero =>
          simp only [corpusUpdate]
          split
          · simp
            omega
          · simp
            omega
        | succ j =>
          have hj : j < cs.length := by simpa using hi
          simp only [corpusUpdate]
          split
          · simpa using ih1 j hj
          · simpa using ih1 j hj
      · simp only [corpusUpdate]
        split
        next hcr =>
          constructor
          · intro _
            exact ⟨0, by simp, by simpa using hcr⟩
          · intro _
            rfl
        next hcr =>
          simp only []
          rw [ih2]
          constructor
          · rintro ⟨i, hi, hlt⟩
            exact ⟨i + 1, by simpa using Nat.succ_lt_succ hi, by simpa using hlt⟩
          · rintro ⟨i, hi, hlt⟩
            cases i with
            | zero => exact absurd (by simpa using hlt) hcr
            | succ j =>
              refine ⟨j, by simpa using hi, by simpa using hlt⟩

/-- Witness for `corpus_merge_max` on concrete maps. -/
theorem corpus_merge_max_witness :
    ([0, 1] : List Nat).length = ([0, 2] : List Nat).length ∧
    ((∀ i, i < ([0, 1] : List Nat).length →
      (corpusUpdate [0, 1] [0, 2]).1.getD i 0 =
        max (([0, 1] : List Nat).getD i 0) (([0, 2] : List Nat).getD i 0)) ∧
    ((corpusUpdate [0, 1] [0, 2]).2 = true ↔
      ∃ i, i < ([0, 1] : List Nat).length ∧
        ([0, 1] : List Nat).getD i 0 < ([0, 2] : List Nat).getD i 0)) :=
  ⟨rfl, corpus_merge_max [0, 1] [0, 2] rfl⟩

/-- C3 counterexample: after recording a comparison at location 0 in a traced
execution, a single `ResetState` call does NOT zero the stored
`(counter, hamming, absolute)` triple at that location — `ResetState` only
memsets `new_cmp_counter_map_` and the edge counter span, never
`max_cmp_map_`. -/
theorem reset_cmp_score_not_zeroed :
    ((ResetState 0 100 (RecordComparison
        (SetIsTracing true (ResetState 0 100 freshCoverage)) 0 3 200)).max_cmp_map 0) ≠
      ⟨0, 0, 0⟩ := by
  decide

/-- C3 amended: a single `ResetState` call zeroes the per-location comparison
hit-counter map (`new_cmp_counter_map_`) and the edge counter map, clears the
new-coverage latch, zeroes `max_stack_recorded` and records the calling
thread's current stack pointer as the depth origin; the comparison score
triples (`max_cmp_map_`) are left unchanged. -/
theorem reset_state_effects (s : ExecutionCoverage) (tid frame : Nat) :
    ((ResetState tid frame s).new_cmp_counter_map = (fun _ => 0)) ∧
    ((ResetState tid frame s).counter_map = List.replicate s.counter_map.length 0) ∧
    ((ResetState tid frame s).new_coverage = false) ∧
    ((ResetState tid frame s).max_stack_recorded = 0) ∧
    ((ResetState tid frame s).test_thread_stack_top tid = some frame) ∧
    ((ResetState tid frame s).max_cmp_map = s.max_cmp_map) := by
  refine ⟨rfl, ?_, rfl, rfl, by simp [ResetState], rfl⟩
  simp [ResetState, List.map_const']

/-- C4: `GetNumberOfCoveredEdges` equals the number of entries of the corpus
map holding a non-zero value; merging a recorder with counters `[0,3,0,5]`
into a fresh zero map of size 4 yields a count of 2 with the merge returning
true, and merging the same unchanged recorder again returns false. -/
theorem covered_edge_count_correct :
    (∀ m : List Nat, GetNumberOfCoveredEdges m = m.countP (fun x => decide (x ≠ 0))) ∧
    GetNumberOfCoveredEdges (corpusUpdate [0, 0, 0, 0] [0, 3, 0, 5]).1 = 2 ∧
    (corpusUpdate [0, 0, 0, 0] [0, 3, 0, 5]).2 = true ∧
    (corpusUpdate (corpusUpdate [0, 0, 0, 0] [0, 3, 0, 5]).1 [0, 3, 0, 5]).2 = false := by
  refine ⟨?_, by decide, by decide, by decide⟩
  intro m
  have key : m.count 0 + m.countP (fun x => decide (x ≠ 0)) = m.length := by
    induction m with
    | nil => rfl
    | cons a t ih =>
      by_cases ha : a = 0
      · subst ha
        simp only [List.count_cons, List.countP_cons, List.length_cons]
        simp only [ne_eq, decide_not] at ih ⊢
        simp
        omega
      · simp only [List.count_cons, List.countP_cons, List.length_cons]
        simp only [ne_eq, decide_not] at ih ⊢
        simp [ha]
        omega
  unfold GetNumberOfCoveredEdges
  omega

/-- C6: a `record_comparison` call made while tracing is disabled changes no
stored value in any map and does not set the new-coverage latch (the whole
recorder state is unchanged). -/
theorem tracing_disabled_noop (s : ExecutionCoverage) (index h1 a1 : Nat)
    (h : s.is_tracing = false) :
    RecordComparison s index h1 a1 = s := by
  simp [RecordComparison, h]

/-- Witness for `tracing_disabled_noop` on a fresh (untraced) recorder. -/
theorem tracing_disabled_noop_witness :
    freshCoverage.is_tracing = false ∧
    RecordComparison freshCoverage 1 2 3 = freshCoverage :=
  ⟨rfl, tracing_disabled_noop freshCoverage 1 2 3 rfl⟩

/-- C7 counterexample: starting from a reachable state in which the stack
watermark map holds a non-zero entry (recorded by a stack sample on the
origin thread), calling `ResetState` twice in a row leaves that entry
non-zero — reset never touches `max_stack_map_`. -/
theorem reset_twice_stack_map_not_zeroed :
    ((ResetState 0 100 (ResetState 0 100
        (UpdateMaxStack 0 40 3 10000 (ResetState 0 100 freshCoverage)).1)).max_stack_map 3) ≠
      0 := by
  decide

/-- C7 amended: calling `ResetState` twice in a row leaves the edge counter
map and the per-location comparison hit-counter map entirely zero, the latch
false and `max_stack_recorded` zero; the comparison score map and the stack
watermark map are left unchanged (so they are zero only if they already
were). -/
theorem reset_twice_effects (s : ExecutionCoverage) (t1 f1 t2 f2 : Nat) :
    ((ResetState t2 f2 (ResetState t1 f1 s)).new_cmp_counter_map = (fun _ => 0)) ∧
    ((ResetState t2 f2 (ResetState t1 f1 s)).counter_map =
      List.replicate s.counter_map.length 0) ∧
    ((ResetState t2 f2 (ResetState t1 f1 s)).new_coverage = false) ∧
    ((ResetState t2 f2 (ResetState t1 f1 s)).max_stack_recorded = 0) ∧
    ((ResetState t2 f2 (ResetState t1 f1 s)).max_cmp_map = s.max_cmp_map) ∧
    ((ResetState t2 f2 (ResetState t1 f1 s)).max_stack_map = s.max_stack_map) := by
  refine ⟨rfl, ?_, rfl, rfl, rfl, rfl⟩
  simp [ResetState, List.map_const']

/-- C10: `ResetState` leaves the tables of recent compares (the
dictionary-capture store) completely unchanged, so operand pairs captured
during a previous execution persist across a reset. -/
theorem reset_preserves_recent_compares (s : ExecutionCoverage) (tid frame : Nat) :
    (ResetState tid frame s).tables_of_recent_compares = s.tables_of_recent_compares :=
  rfl

theorem cmpScoreStep_counter_le (c1 : Nat) (sc : CmpScore) (h1 a1 : Nat) :
    sc.counter ≤ (cmpScoreStep c1 sc h1 a1).1.counter := by
  by_cases hlt : sc.counter < c1
  · simp only [cmpScoreStep, if_pos hlt]
    omega
  · by_cases heq : c1 = sc.counter
    · simp [cmpScoreStep, hlt, heq]
    · simp [cmpScoreStep, hlt, heq]

theorem cmpScoreStep_mono_of_counter_eq (c1 : Nat) (sc : CmpScore) (h1 a1 : Nat)
    (hc : (cmpScoreStep c1 sc h1 a1).1.counter = sc.counter) :
    sc.hamming ≤ (cmpScoreStep c1 sc h1 a1).1.hamming ∧
    sc.absolute ≤ (cmpScoreStep c1 sc h1 a1).1.absolute := by
  by_cases hlt : sc.counter < c1
  · simp only [cmpScoreStep, if_pos hlt] at hc
    omega
  · by_cases heq : c1 = sc.counter
    · simp only [cmpScoreStep, if_neg hlt, if_pos heq]
      constructor
      · split
        · omega
        · exact le_refl _
      · split
        · omega
        · exact le_refl _
    · simp [cmpScoreStep, hlt, heq]

theorem record_counter_le_step (s : ExecutionCoverage) (index h1 a1 i : Nat) :
    (s.max_cmp_map i).counter ≤ ((RecordComparison s index h1 a1).max_cmp_map i).counter := by
  by_cases htr : s.is_tracing = true
  · simp only [RecordComparison, if_pos htr, UpdateCmpMap]
    by_cases hi : i = index % kCmpCovMapSize
    · simp only [if_pos hi]
      rw [hi]
      exact cmpScoreStep_counter_le _ _ _ _
    · simp [hi]
  · simp [RecordComparison, htr]

/-- C5 counterexample: within one traced execution (after a single reset),
two comparison records at location 7 — first with `(hamming, absolute) =
(5, 5)`, then with `(2, 2)` — leave the stored hamming value strictly
smaller after the second call than after the first: when the counter
improves, hamming and absolute are overwritten, possibly with lower
values, so they are not non-decreasing. -/
theorem cmp_hamming_decreases_cex :
    ((RecordComparison (RecordComparison
        (SetIsTracing true (ResetState 0 100 freshCoverage)) 7 5 5) 7 2 2).max_cmp_map
          7).hamming <
      ((RecordComparison
        (SetIsTracing true (ResetState 0 100 freshCoverage)) 7 5 5).max_cmp_map 7).hamming := by
  decide

/-- C5 amended: over any sequence of `record_comparison` calls the stored
counter at each location is non-decreasing; the stored hamming and absolute
values are non-decreasing across a call that leaves the stored counter
unchanged (they may be overwritten with smaller values by a call that
improves the counter). -/
theorem cmp_monotonicity_amended (s : ExecutionCoverage) (calls : List (Nat × Nat × Nat))
    (index h1 a1 i : Nat) :
    ((s.max_cmp_map i).counter ≤ ((runComparisons s calls).max_cmp_map i).counter) ∧
    (((RecordComparison s index h1 a1).max_cmp_map i).counter = (s.max_cmp_map i).counter →
      (s.max_cmp_map i).hamming ≤ ((RecordComparison s index h1 a1).max_cmp_map i).hamming ∧
      (s.max_cmp_map i).absolute ≤
        ((RecordComparison s index h1 a1).max_cmp_map i).absolute) := by
  constructor
  · induction calls generalizing s with
    | nil => exact le_refl _
    | cons c rest ih =>
      have h1 : runComparisons s (c :: rest) =
          runComparisons (RecordComparison s c.1 c.2.1 c.2.2) rest := rfl
      rw [h1]
      exact le_trans (record_counter_le_step s c.1 c.2.1 c.2.2 i)
        (ih (RecordComparison s c.1 c.2.1 c.2.2))
  · intro hc
    by_cases htr : s.is_tracing = true
    · simp only [RecordComparison, if_pos htr, UpdateCmpMap] at hc ⊢
      by_cases hi : i = index % kCmpCovMapSize
      · simp only [if_pos hi] at hc ⊢
        rw [hi] at hc ⊢
        exact cmpScoreStep_mono_of_counter_eq _ _ _ _ hc
      · simp [hi]
    · simp [RecordComparison, htr]

/-- Witness for `cmp_monotonicity_amended` at a concrete state whose stored
counter is not improved by the recorded comparison. -/
theorem cmp_monotonicity_amended_witness :
    (((SetIsTracing true freshCoverage).max_cmp_map 0).counter ≤
      ((runComparisons (SetIsTracing true freshCoverage) [(0, 1, 1)]).max_cmp_map 0).counter) ∧
    (((RecordComparison (SetIsTracing true freshCoverage) 0 1 1).max_cmp_map 0).counter =
        ((SetIsTracing true freshCoverage).max_cmp_map 0).counter →
      ((SetIsTracing true freshCoverage).max_cmp_map 0).hamming ≤
        ((RecordComparison (SetIsTracing true freshCoverage) 0 1 1).max_cmp_map 0).hamming ∧
      ((SetIsTracing true freshCoverage).max_cmp_map 0).absolute ≤
        ((RecordComparison (SetIsTracing true freshCoverage) 0 1 1).max_cmp_map 0).absolute) :=
  cmp_monotonicity_amended (SetIsTracing true freshCoverage) [(0, 1, 1)] 0 1 1 0

/-- C8: a `record_stack_sample` call from a thread whose thread-local origin
slot was never set by a reset is a no-op: the whole recorder state — in
particular the stack watermark map, `max_stack_recorded` and the latch — is
unchanged, and no termination is triggered. -/
theorem stack_sample_foreign_thread_noop (s : ExecutionCoverage)
    (tid frame pc budget : Nat) (h : s.test_thread_stack_top tid = none) :
    UpdateMaxStack tid frame pc budget s = (s, false) := by
  simp only [UpdateMaxStack, h]

/-- Witness for `stack_sample_foreign_thread_noop` on a fresh recorder, whose
thread-local slots are all unset. -/
theorem stack_sample_foreign_thread_noop_witness :
    freshCoverage.test_thread_stack_top 0 = none ∧
    UpdateMaxStack 0 5 3 100 freshCoverage = (freshCoverage, false) :=
  ⟨rfl, stack_sample_foreign_thread_noop freshCoverage 0 5 3 100 rfl⟩

/-- C9: on the originating thread (origin slot `some top`), with depth
computed as the distance from the recorded origin down to the current frame:
if the depth exceeds the stored watermark for the call site, the watermark is
updated to the depth; if it exceeds `max_stack_recorded`, that is updated too;
and the process is terminated (the returned flag is true) exactly when the
newly updated `max_stack_recorded` exceeds the configured stack budget —
there is no recoverable error path. -/
theorem stack_sample_origin_updates (s : ExecutionCoverage)
    (tid frame pc budget top : Nat) (h : s.test_thread_stack_top tid = some top) :
    ((s.max_stack_map (pc % kMaxStackMapSize) < top - frame →
      (UpdateMaxStack tid frame pc budget s).1.max_stack_map (pc % kMaxStackMapSize) =
        top - frame) ∧
    (s.max_stack_recorded < top - frame →
      (UpdateMaxStack tid frame pc budget s).1.max_stack_recorded = top - frame) ∧
    ((UpdateMaxStack tid frame pc budget s).2 = true ↔
      (s.max_stack_recorded < top - frame ∧ budget < top - frame))) := by
  simp only [UpdateMaxStack, h]
  by_cases hmsr : s.max_stack_recorded < top - frame
  · simp only [if_pos hmsr]
    refine ⟨?_, ?_, ?_⟩
    · intro hw
      simp [if_pos hw]
    · intro _
      trivial
    · simp [hmsr]
  · simp only [if_neg hmsr]
    refine ⟨?_, fun hc => absurd hc hmsr, ?_⟩
    · intro hw
      simp [if_pos hw]
    · simp [hmsr]

/-- Witness for `stack_sample_origin_updates`: after a reset records origin
100, a sample at frame 40 (depth 60) with budget 50 updates the watermark for
call site 3, updates `max_stack_recorded` and triggers termination. -/
theorem stack_sample_origin_updates_witness :
    (ResetState 0 100 freshCoverage).test_thread_stack_top 0 = some 100 ∧
    (((ResetState 0 100 freshCoverage).max_stack_map (3 % kMaxStackMapSize) < 100 - 40 →
      (UpdateMaxStack 0 40 3 50 (ResetState 0 100 freshCoverage)).1.max_stack_map
          (3 % kMaxStackMapSize) = 100 - 40) ∧
    ((ResetState 0 100 freshCoverage).max_stack_recorded < 100 - 40 →
      (UpdateMaxStack 0 40 3 50 (ResetState 0 100 freshCoverage)).1.max_stack_recorded =
        100 - 40) ∧
    ((UpdateMaxStack 0 40 3 50 (ResetState 0 100 freshCoverage)).2 = true ↔
      ((ResetState 0 100 freshCoverage).max_stack_recorded < 100 - 40 ∧ 50 < 100 - 40))) :=
  ⟨by decide, stack_sample_origin_updates (ResetState 0 100 freshCoverage) 0 40 3 50 100
    (by decide)⟩

end FuzztestCoverage
